import Mathlib

/-!
Shallow embedding of the TODO service (Express + Mongoose) task layer:
`src/controllers/todoController.js` (handlers `getAllTodos`, `getTodoById`,
`createTodo`, `updateTodo`, `deleteTodo`) and the validation chains of
`src/routes/todos.js`.

Modelling conventions:
- MongoDB ObjectIds are `String`s; `isMongoId` is express-validator's
  24-hex-character check.  A Mongoose query whose `_id` value cannot be cast
  to an ObjectId throws a `CastError`; the store primitives therefore return
  `Except String _`, and the handlers map a thrown error to the 500 envelope
  of their `catch` block.
- The store is a `List Todo`; `Todo.find` / `findOne` / `findOneAndDelete` /
  `countDocuments` are modelled over it.  `sort({createdAt:-1})` is
  `List.mergeSort` with the descending-`createdAt` comparison, `skip`/`limit`
  are `List.drop`/`List.take` (a negative skip is a server error, as in
  MongoDB; a negative limit behaves like its absolute value, as documented
  for MongoDB's `limit`).
- JS `undefined` vs present values are `Option`; the update body's `dueDate`
  is `Option (Option Int)`: `none` = field absent (`undefined`), `some none`
  = field present but falsy (`null` etc., the `dueDate ? … : null` branch),
  `some (some d)` = present truthy date value.  Dates are `Int` timestamps.
- `parseInt(q) || d` yields `d` when the parameter is missing or
  non-numeric (`NaN`) or parses to `0`; we model the parsed parameter as
  `Option Int` (`none` = missing/NaN) and apply the same `|| d` fallback.
-/

/-- Priority is a plain string in queries and bodies; the schema restricts
stored values to `low` / `medium` / `high` but the query layer compares raw
strings, so the embedding keeps `String`. -/
structure Todo where
  id : String
  title : String
  description : Option String
  completed : Bool
  priority : String
  dueDate : Option Int
  user : String
  createdAt : Int
  updatedAt : Int
deriving DecidableEq, Repr

/-- The uniform response envelope `{success, message, data…}` together with
the HTTP status code the handler sends. Absent payload fields are `none`. -/
structure ApiResponse where
  status : Nat
  success : Bool
  message : String
  todo : Option Todo := none
  todos : Option (List Todo) := none
  total : Option Nat := none
  page : Option Int := none
  limit : Option Int := none
  pages : Option Int := none
  error : Option String := none
deriving DecidableEq, Repr

/-- express-validator's `isMongoId`: exactly 24 hexadecimal characters
(stated over the string's character list). -/
def isMongoId (s : String) : Bool :=
  s.data.length == 24 &&
    s.data.all fun c => c.isDigit || ('a' ≤ c && c ≤ 'f') || ('A' ≤ c && c ≤ 'F')

/-- The match predicate of the Mongoose query `{_id: id, user: userId}`. -/
def idUserMatch (i u : String) (t : Todo) : Bool :=
  t.id == i && t.user == u

/-- `Todo.findOne({_id: i, user: u})`: throws a `CastError` when `i` is not a
valid ObjectId, otherwise the first matching document (or none). -/
def findOne (store : List Todo) (i u : String) : Except String (Option Todo) :=
  if isMongoId i then .ok (store.find? (idUserMatch i u))
  else .error "Cast to ObjectId failed"

/-- `src/controllers/todoController.js` `getTodoById`: ownership-scoped
lookup, 404 on no match, 500 on a thrown error. It never consults the
validation result recorded by the route's `todoIdValidation` chain. -/
def getTodoById (store : List Todo) (paramsId userId : String) : ApiResponse :=
  match findOne store paramsId userId with
  | .error e =>
      { status := 500, success := false,
        message := "Server error while fetching todo", error := some e }
  | .ok none =>
      { status := 404, success := false, message := "Todo not found" }
  | .ok (some t) =>
      { status := 200, success := true,
        message := "Todo retrieved successfully", todo := some t }

/-- `Todo.findOneAndDelete({_id: i, user: u})`: cast check, then remove the
first matching document, returning it alongside the new store. -/
def findOneAndDelete (store : List Todo) (i u : String) :
    Except String (Option Todo × List Todo) :=
  if isMongoId i then
    match store.find? (idUserMatch i u) with
    | none => .ok (none, store)
    | some t => .ok (some t, store.eraseP (idUserMatch i u))
  else .error "Cast to ObjectId failed"

/-- `src/controllers/todoController.js` `deleteTodo`: ownership-scoped
delete; 404 when nothing matched, 500 on a thrown error. Like `getTodoById`
it never consults the `todoIdValidation` result. Returns the response with
the store after the operation. -/
def deleteTodo (store : List Todo) (paramsId userId : String) :
    ApiResponse × List Todo :=
  match findOneAndDelete store paramsId userId with
  | .error e =>
      ({ status := 500, success := false,
         message := "Server error while deleting todo", error := some e }, store)
  | .ok (none, s) =>
      ({ status := 404, success := false, message := "Todo not found" }, s)
  | .ok (some _, s) =>
      ({ status := 200, success := true,
         message := "Todo deleted successfully" }, s)

/-- PUT body: each field is `Option` (absent = JS `undefined`).  `dueDate`
distinguishes absent (`none`), present-falsy (`some none`, the `null` branch
of `dueDate ? new Date(dueDate) : null`) and present-truthy (`some (some d)`). -/
structure UpdateBody where
  title : Option String := none
  description : Option String := none
  completed : Option Bool := none
  priority : Option String := none
  dueDate : Option (Option Int) := none
deriving DecidableEq, Repr

/-- The field-by-field `if (x !== undefined) todo.x = …` block of
`updateTodo`, plus the `updatedAt` refresh performed on save (Mongoose
`timestamps: true`; modelled from the spec's update-timestamp attribute, the
schema file is outside the provided sources). -/
def applyUpdate (t : Todo) (b : UpdateBody) (now : Int) : Todo :=
  { t with
    title := match b.title with | none => t.title | some v => v
    description := match b.description with | none => t.description | some v => some v
    completed := match b.completed with | none => t.completed | some v => v
    priority := match b.priority with | none => t.priority | some v => v
    dueDate := match b.dueDate with
      | none => t.dueDate
      | some none => none
      | some (some d) => some d
    updatedAt := now }

/-- Mongoose `todo.save()` after mutating a fetched document: the document
with that id is replaced in the store. -/
def saveReplace (store : List Todo) (t : Todo) : List Todo :=
  store.map fun x => if x.id == t.id then t else x

/-- `src/controllers/todoController.js` `updateTodo`: checks the recorded
validation result first (400 on errors), then the ownership-scoped lookup
(404 / 500), then applies only the fields present in the body and saves. -/
def updateTodo (store : List Todo) (paramsId userId : String)
    (errors : List String) (b : UpdateBody) (now : Int) :
    ApiResponse × List Todo :=
  if errors ≠ [] then
    ({ status := 400, success := false, message := "Validation failed" }, store)
  else
    match findOne store paramsId userId with
    | .error e =>
        ({ status := 500, success := false,
           message := "Server error while updating todo", error := some e }, store)
    | .ok none =>
        ({ status := 404, success := false, message := "Todo not found" }, store)
    | .ok (some t) =>
        let t' := applyUpdate t b now
        ({ status := 200, success := true,
           message := "Todo updated successfully", todo := some t' },
         saveReplace store t')

/-- `todoIdValidation` of `src/routes/todos.js`: `param('id').isMongoId()`
records an error exactly when the id is not a MongoId. -/
def todoIdValidationErrors (i : String) : List String :=
  if isMongoId i then [] else ["Invalid todo ID"]

/-- `updateTodoValidation` of `src/routes/todos.js` over the typed body:
`param('id').isMongoId()`, `body('completed').optional().isBoolean()`,
`body('priority').optional().isIn(['low','medium','high'])`,
`body('dueDate').optional().isISO8601()`.  express-validator's `optional()`
skips only an absent (`undefined`) field, so a present-but-falsy dueDate
(`some none`: `null`, empty) reaches `isISO8601` and fails it, while a
present parseable date (`some (some d)`, modelled already parsed) passes.
`completed` is typed `Bool` here, so `isBoolean` never records an error;
`title` and `description` carry no validators. -/
def updateTodoValidationErrors (i : String) (b : UpdateBody) : List String :=
  (if isMongoId i then [] else ["Invalid todo ID"]) ++
  (match b.priority with
   | none => []
   | some p =>
      if p == "low" || p == "medium" || p == "high" then []
      else ["Priority must be low, medium, or high"]) ++
  (match b.dueDate with
   | none => []
   | some none => ["Due date must be a valid date"]
   | some (some _) => [])

/-- PUT /api/todos/:id as routed in `src/routes/todos.js`: the
`updateTodoValidation` chain records its result, which `updateTodo` checks
first. -/
def updateTodoRoute (store : List Todo) (i caller : String) (b : UpdateBody)
    (now : Int) : ApiResponse × List Todo :=
  updateTodo store i caller (updateTodoValidationErrors i b) b now

/-- Query parameters of GET /api/todos after URL parsing. `page`/`limit`
carry the result of `parseInt` (`none` = parameter missing or `NaN`);
`completed`/`priority` are the raw query strings (`none` = absent). -/
structure ListQuery where
  page : Option Int := none
  limit : Option Int := none
  completed : Option String := none
  priority : Option String := none
deriving DecidableEq, Repr

/-- JS `parseInt(x) || d`: the default replaces a missing/NaN parse and a
parse of `0` (falsy); every other integer, including negatives, passes. -/
def jsOrDefault (v : Option Int) (d : Int) : Int :=
  match v with
  | none => d
  | some n => if n = 0 then d else n

/-- Effective page of a list request: `parseInt(req.query.page) || 1`. -/
def effPage (q : ListQuery) : Int := jsOrDefault q.page 1

/-- Effective limit of a list request: `parseInt(req.query.limit) || 10`. -/
def effLimit (q : ListQuery) : Int := jsOrDefault q.limit 10

/-- The filter object built by `getAllTodos`: always `{user}`, plus
`completed: req.query.completed === 'true'` when the parameter is present,
plus `priority` when the parameter is truthy (nonempty). -/
def listMatch (userId : String) (q : ListQuery) (t : Todo) : Bool :=
  t.user == userId &&
    (match q.completed with
     | none => true
     | some s => t.completed == (s == "true")) &&
    (match q.priority with
     | none => true
     | some p => if p == "" then true else t.priority == p)

/-- `sort({createdAt: -1})`: descending creation time. -/
def byCreatedDesc (a b : Todo) : Bool := decide (b.createdAt ≤ a.createdAt)

/-- `src/controllers/todoController.js` `getAllTodos`:
`page`/`limit` defaulting, `skip = (page-1)*limit`, filter construction,
`find(filter).sort({createdAt:-1}).skip(skip).limit(limit)`,
`total = countDocuments(filter)`, `pages = Math.ceil(total/limit)`.
A negative skip is rejected by MongoDB and surfaces through the catch block
as a 500.  The effective limit is never `0` (a parsed `0` falls back to 10),
so `Math.ceil(total/limit)` is the ordinary ceiling division for a positive
limit and a nonpositive rounding toward zero for a negative one. -/
def getAllTodos (store : List Todo) (userId : String) (q : ListQuery) :
    ApiResponse :=
  let page := effPage q
  let limit := effLimit q
  let skip := (page - 1) * limit
  let filtered := store.filter (listMatch userId q)
  let total := filtered.length
  if skip < 0 then
    { status := 500, success := false,
      message := "Server error while fetching todos",
      error := some "Skip value must be non-negative" }
  else
    { status := 200, success := true,
      message := "Todos retrieved successfully",
      todos := some (((filtered.mergeSort byCreatedDesc).drop skip.toNat).take
        limit.natAbs),
      total := some total,
      page := some page,
      limit := some limit,
      pages := some (if 0 < limit then ((total + limit.toNat - 1 : Nat) / limit.toNat : Nat)
        else -((total / limit.natAbs : Nat) : Int)) }

/-- POST body of `createTodo`. `title` is required (validated `notEmpty`);
`dueDate` mirrors the JS `dueDate ? new Date(dueDate) : undefined` ternary:
`none` = absent, `some none` = present falsy, `some (some d)` = truthy. -/
structure CreateBody where
  title : String
  description : Option String := none
  priority : Option String := none
  dueDate : Option (Option Int) := none
deriving DecidableEq, Repr

/-- The document built by `createTodo` (before save): `priority || 'medium'`
falls back on an absent or falsy (empty) priority; a falsy `dueDate` leaves
the field unset; the owner is the authenticated caller.  `completed := false`
and the save-time `createdAt`/`updatedAt` stamps are modelled from the spec:
they come from the Mongoose schema in `models/Todo.js` (default false,
`timestamps: true`), which is outside the provided sources; the spec and the
swagger schema in the sources both state default `completed=false`. -/
def newTodoOf (userId : String) (b : CreateBody) (newId : String)
    (now : Int) : Todo :=
  { id := newId
    title := b.title
    description := b.description
    completed := false
    priority := match b.priority with
      | none => "medium"
      | some p => if p == "" then "medium" else p
    dueDate := match b.dueDate with
      | some (some d) => some d
      | _ => none
    user := userId
    createdAt := now
    updatedAt := now }

/-- `src/controllers/todoController.js` `createTodo`: 400 when the recorded
validation result is nonempty, otherwise builds the document and saves it
(`newId`/`now` stand for the generated ObjectId and timestamp). -/
def createTodo (store : List Todo) (userId : String) (errors : List String)
    (b : CreateBody) (newId : String) (now : Int) : ApiResponse × List Todo :=
  if errors ≠ [] then
    ({ status := 400, success := false, message := "Validation failed" }, store)
  else
    let todo := newTodoOf userId b newId now
    ({ status := 201, success := true,
       message := "Todo created successfully", todo := some todo },
     store ++ [todo])

/-! ### Lookup lemmas -/

/-- With globally unique ids, a lookup for the id of a stored task owned by
someone else finds nothing: no other document can carry that id. -/
theorem find?_idUserMatch_eq_none (store : List Todo) (t : Todo)
    (caller : String) (hnd : (store.map Todo.id).Nodup) (ht : t ∈ store)
    (hu : t.user ≠ caller) :
    store.find? (idUserMatch t.id caller) = none := by
  rw [List.find?_eq_none]
  intro x hx hpx
  simp only [idUserMatch, Bool.and_eq_true, beq_iff_eq] at hpx
  obtain ⟨hid, huser⟩ := hpx
  have hxt : x = t := List.inj_on_of_nodup_map hnd hx ht hid
  exact hu (hxt ▸ huser)

/-- With globally unique ids, a lookup for the id of a stored task owned by
the caller finds exactly that task. -/
theorem find?_idUserMatch_eq_some (store : List Todo) (t : Todo)
    (caller : String) (hnd : (store.map Todo.id).Nodup) (ht : t ∈ store)
    (hu : t.user = caller) :
    store.find? (idUserMatch t.id caller) = some t := by
  induction store with
  | nil => cases ht
  | cons h tl ih =>
    rw [List.find?_cons]
    by_cases hp : idUserMatch t.id caller h = true
    · have hid : h.id = t.id := by
        simp only [idUserMatch, Bool.and_eq_true, beq_iff_eq] at hp
        exact hp.1
      have hht : h = t :=
        List.inj_on_of_nodup_map hnd (List.mem_cons_self h tl) ht hid
      subst hht
      simp [hp]
    · have hth : t ≠ h := by
        intro he
        exact hp (by rw [← he]; simp [idUserMatch, hu])
      have ht' : t ∈ tl := by
        rcases List.mem_cons.mp ht with h1 | h1
        · exact absurd h1 hth
        · exact h1
      have hnd' : (tl.map Todo.id).Nodup := by
        simpa using (List.nodup_cons.mp (by simpa using hnd)).2
      simp only [hp]
      simpa using ih hnd' ht'

/-! ### Claim theorems -/

/-- C1 (Ownership isolation): for every stored task and every authenticated
caller who is not its owner, `getTodoById` never returns the task, and
`updateTodo` and `deleteTodo` leave the store unchanged — the task is never
returned, modified, or removed, even though its id is valid and exists. -/
theorem ownership_isolation (store : List Todo) (t : Todo) (caller : String)
    (errors : List String) (b : UpdateBody) (now : Int)
    (hnd : (store.map Todo.id).Nodup) (ht : t ∈ store)
    (hu : t.user ≠ caller) :
    (getTodoById store t.id caller).todo ≠ some t ∧
    (updateTodo store t.id caller errors b now).2 = store ∧
    (deleteTodo store t.id caller).2 = store := by
  by_cases hm : isMongoId t.id = true
  · have hfind := find?_idUserMatch_eq_none store t caller hnd ht hu
    refine ⟨?_, ?_, ?_⟩
    · simp [getTodoById, findOne, hm, hfind]
    · by_cases he : errors = []
      · simp [updateTodo, findOne, hm, hfind, he]
      · simp [updateTodo, he]
    · simp [deleteTodo, findOneAndDelete, hm, hfind]
  · refine ⟨?_, ?_, ?_⟩
    · simp [getTodoById, findOne, hm]
    · by_cases he : errors = []
      · simp [updateTodo, findOne, hm, he]
      · simp [updateTodo, he]
    · simp [deleteTodo, findOneAndDelete, hm]

/-- A concrete stored task used by the witnesses. -/
def wTodo : Todo :=
  { id := "aaaaaaaaaaaaaaaaaaaaaaaa", title := "buy milk", description := none,
    completed := false, priority := "medium", dueDate := none,
    user := "u1", createdAt := 5, updatedAt := 5 }

/-- Witness for C1 at a concrete store, task and foreign caller. -/
theorem ownership_isolation_witness :
    (getTodoById [wTodo] wTodo.id "u2").todo ≠ some wTodo ∧
    (updateTodo [wTodo] wTodo.id "u2" [] {} 0).2 = [wTodo] ∧
    (deleteTodo [wTodo] wTodo.id "u2").2 = [wTodo] :=
  ownership_isolation [wTodo] wTodo "u2" [] {} 0
    (by decide) (by decide) (by decide)

/-- C2 (Existence hiding): for a well-formed id, `getTodoById` produces the
identical 404 "Todo not found" response both when no task with that id is
stored and when such a task is stored but owned by a different caller. -/
theorem existence_hiding (store : List Todo) (i caller : String)
    (hnd : (store.map Todo.id).Nodup) (hm : isMongoId i = true)
    (hcase : (∀ t ∈ store, t.id ≠ i) ∨
      ∃ t ∈ store, t.id = i ∧ t.user ≠ caller) :
    getTodoById store i caller =
      { status := 404, success := false, message := "Todo not found" } := by
  have hfind : store.find? (idUserMatch i caller) = none := by
    rcases hcase with habs | ⟨t, ht, hid, hu⟩
    · rw [List.find?_eq_none]
      intro x hx hpx
      simp only [idUserMatch, Bool.and_eq_true, beq_iff_eq] at hpx
      exact habs x hx hpx.1
    · rw [← hid]
      exact find?_idUserMatch_eq_none store t caller hnd ht hu
  simp [getTodoById, findOne, hm, hfind]

/-- Witness for C2: the same 404 envelope for an absent id and for an id
held by another owner. -/
theorem existence_hiding_witness :
    getTodoById [] "bbbbbbbbbbbbbbbbbbbbbbbb" "u2" =
      { status := 404, success := false, message := "Todo not found" } ∧
    getTodoById [wTodo] "aaaaaaaaaaaaaaaaaaaaaaaa" "u2" =
      { status := 404, success := false, message := "Todo not found" } :=
  ⟨existence_hiding [] "bbbbbbbbbbbbbbbbbbbbbbbb" "u2" (by decide) (by decide)
      (Or.inl (by decide)),
   existence_hiding [wTodo] "aaaaaaaaaaaaaaaaaaaaaaaa" "u2" (by decide)
      (by decide) (Or.inr ⟨wTodo, by decide, by decide, by decide⟩)⟩

/-- C10 (implicit): a syntactically malformed (non-MongoId) id makes the
`todoIdValidation` chain record an error, yet `getTodoById` and `deleteTodo`
never branch on that result: the request reaches the store lookup, the cast
failure surfaces as a 500 server-error envelope, and neither handler ever
produces a 400 validation response. -/
theorem malformed_id_server_error (store : List Todo) (i caller : String)
    (hm : isMongoId i = false) :
    todoIdValidationErrors i ≠ [] ∧
    (getTodoById store i caller).status = 500 ∧
    (getTodoById store i caller).status ≠ 400 ∧
    (getTodoById store i caller).success = false ∧
    (deleteTodo store i caller).1.status = 500 ∧
    (deleteTodo store i caller).1.status ≠ 400 ∧
    (deleteTodo store i caller).2 = store := by
  refine ⟨?_, ?_⟩
  · simp [todoIdValidationErrors, hm]
  · simp [getTodoById, deleteTodo, findOne, findOneAndDelete, hm]

/-- Witness for C10 at the malformed id "abc". -/
theorem malformed_id_server_error_witness :
    todoIdValidationErrors "abc" ≠ [] ∧
    (getTodoById [wTodo] "abc" "u1").status = 500 ∧
    (getTodoById [wTodo] "abc" "u1").status ≠ 400 ∧
    (getTodoById [wTodo] "abc" "u1").success = false ∧
    (deleteTodo [wTodo] "abc" "u1").1.status = 500 ∧
    (deleteTodo [wTodo] "abc" "u1").1.status ≠ 400 ∧
    (deleteTodo [wTodo] "abc" "u1").2 = [wTodo] :=
  malformed_id_server_error [wTodo] "abc" "u1" (by decide)

/-- C7 (Partial-update frame): updating an owned task changes only the
fields present in the body — every absent field keeps its prior value.  In
particular a body carrying only `{completed}` applies that flag and leaves
title, description, priority and dueDate untouched. -/
theorem partial_update_frame (store : List Todo) (t : Todo) (caller : String)
    (b : UpdateBody) (now : Int)
    (hnd : (store.map Todo.id).Nodup) (ht : t ∈ store)
    (hu : t.user = caller) (hm : isMongoId t.id = true) :
    (updateTodo store t.id caller [] b now).1.status = 200 ∧
    ∀ u, (updateTodo store t.id caller [] b now).1.todo = some u →
      (b.title = none → u.title = t.title) ∧
      (b.description = none → u.description = t.description) ∧
      (b.completed = none → u.completed = t.completed) ∧
      (b.priority = none → u.priority = t.priority) ∧
      (b.dueDate = none → u.dueDate = t.dueDate) ∧
      (∀ c, b.completed = some c → u.completed = c) := by
  have hfind := find?_idUserMatch_eq_some store t caller hnd ht hu
  constructor
  · simp [updateTodo, findOne, hm, hfind]
  · intro u huu
    have heq : (updateTodo store t.id caller [] b now).1.todo
        = some (applyUpdate t b now) := by
      simp [updateTodo, findOne, hm, hfind]
    rw [heq] at huu
    have hu' : applyUpdate t b now = u := Option.some.inj huu
    subst hu'
    refine ⟨?_, ?_, ?_, ?_, ?_, ?_⟩
    · intro hb; simp [applyUpdate, hb]
    · intro hb; simp [applyUpdate, hb]
    · intro hb; simp [applyUpdate, hb]
    · intro hb; simp [applyUpdate, hb]
    · intro hb; simp [applyUpdate, hb]
    · intro c hb; simp [applyUpdate, hb]

/-- Witness for C7: a body carrying only `{completed := true}` applied to a
stored task of the caller. -/
theorem partial_update_frame_witness :
    (updateTodo [wTodo] wTodo.id "u1" [] { completed := some true } 9).1.status
        = 200 ∧
    ∀ u, (updateTodo [wTodo] wTodo.id "u1" [] { completed := some true } 9).1.todo
          = some u →
      ((some true : Option Bool) = none → u.title = wTodo.title) ∧
      ((none : Option String) = none → u.description = wTodo.description) ∧
      ((some true : Option Bool) = none → u.completed = wTodo.completed) ∧
      ((none : Option String) = none → u.priority = wTodo.priority) ∧
      ((none : Option (Option Int)) = none → u.dueDate = wTodo.dueDate) ∧
      (∀ c, (some true : Option Bool) = some c → u.completed = c) := by
  have h := partial_update_frame [wTodo] wTodo "u1"
    { completed := some true } 9 (by decide) (by decide) (by decide) (by decide)
  exact ⟨h.1, fun u huu => by
    have h2 := h.2 u huu
    exact ⟨fun _ => h2.1 rfl, fun _ => h2.2.1 rfl, fun hc => h2.2.2.1 hc,
      fun _ => h2.2.2.2.1 rfl, fun _ => h2.2.2.2.2.1 rfl, h2.2.2.2.2.2⟩⟩

/-- C8 (code bug): through the route, a PUT whose body carries `dueDate`
explicitly null is rejected by `updateTodoValidation` with the 400
"Validation failed" envelope before the controller runs — the stored due
date is never cleared and the store is unchanged.  The controller's own
`dueDate ? new Date(dueDate) : null` branch would clear the date had the
request reached it with an empty validation result (last conjunct), so the
route-level rejection makes that clear branch unreachable. -/
theorem explicit_clear_unreachable (store : List Todo) (t : Todo)
    (caller : String) (b : UpdateBody) (now : Int)
    (hnd : (store.map Todo.id).Nodup) (ht : t ∈ store)
    (hu : t.user = caller) (hm : isMongoId t.id = true)
    (hb : b.dueDate = some none) :
    (updateTodoRoute store t.id caller b now).1.status = 400 ∧
    (updateTodoRoute store t.id caller b now).1.message
      = "Validation failed" ∧
    (updateTodoRoute store t.id caller b now).2 = store ∧
    (∀ u, (updateTodo store t.id caller [] b now).1.todo = some u →
      u.dueDate = none) := by
  have herr : updateTodoValidationErrors t.id b ≠ [] := by
    simp [updateTodoValidationErrors, hb]
  refine ⟨?_, ?_, ?_, ?_⟩
  · simp [updateTodoRoute, updateTodo, herr]
  · simp [updateTodoRoute, updateTodo, herr]
  · simp [updateTodoRoute, updateTodo, herr]
  · intro u huu
    have hfind := find?_idUserMatch_eq_some store t caller hnd ht hu
    have heq : (updateTodo store t.id caller [] b now).1.todo
        = some (applyUpdate t b now) := by
      simp [updateTodo, findOne, hm, hfind]
    rw [heq] at huu
    rw [← Option.some.inj huu]
    simp [applyUpdate, hb]

/-- Witness for C8 at the failing input: an owned task storing a due date,
body `{dueDate: null}`. -/
theorem explicit_clear_unreachable_witness :
    (updateTodoRoute [{ wTodo with dueDate := some 7 }] wTodo.id "u1"
        { dueDate := some none } 9).1.status = 400 ∧
    (updateTodoRoute [{ wTodo with dueDate := some 7 }] wTodo.id "u1"
        { dueDate := some none } 9).1.message = "Validation failed" ∧
    (updateTodoRoute [{ wTodo with dueDate := some 7 }] wTodo.id "u1"
        { dueDate := some none } 9).2 = [{ wTodo with dueDate := some 7 }] ∧
    (∀ u, (updateTodo [{ wTodo with dueDate := some 7 }] wTodo.id "u1" []
        { dueDate := some none } 9).1.todo = some u → u.dueDate = none) :=
  explicit_clear_unreachable [{ wTodo with dueDate := some 7 }]
    { wTodo with dueDate := some 7 } "u1" { dueDate := some none } 9
    (by decide) (by decide) (by decide) (by decide) (by decide)

/-- C9 (Create/get round-trip with defaults): creating a task and fetching
the returned id as the same owner yields exactly the created document, whose
fields equal the submitted ones, whose owner is the caller, whose id and
timestamps are the generated ones, and whose `completed`/`priority` default
to `false`/`"medium"` when omitted from the create request. -/
theorem create_get_roundtrip (store : List Todo) (caller : String)
    (b : CreateBody) (newId : String) (now : Int)
    (hm : isMongoId newId = true) (hfresh : ∀ t ∈ store, t.id ≠ newId) :
    (createTodo store caller [] b newId now).1.status = 201 ∧
    getTodoById (createTodo store caller [] b newId now).2 newId caller =
      { status := 200, success := true,
        message := "Todo retrieved successfully",
        todo := some (newTodoOf caller b newId now) } ∧
    ∀ u, (getTodoById (createTodo store caller [] b newId now).2
        newId caller).todo = some u →
      u.title = b.title ∧ u.description = b.description ∧
      u.user = caller ∧ u.id = newId ∧
      u.createdAt = now ∧ u.updatedAt = now ∧
      u.completed = false ∧
      (b.priority = none → u.priority = "medium") ∧
      (∀ p, b.priority = some p → p ≠ "" → u.priority = p) ∧
      (b.dueDate = none → u.dueDate = none) ∧
      (∀ d, b.dueDate = some (some d) → u.dueDate = some d) := by
  have hstore : (createTodo store caller [] b newId now).2
      = store ++ [newTodoOf caller b newId now] := by
    simp [createTodo]
  have hfind : (store ++ [newTodoOf caller b newId now]).find?
      (idUserMatch newId caller) = some (newTodoOf caller b newId now) := by
    rw [List.find?_append]
    have h1 : store.find? (idUserMatch newId caller) = none := by
      rw [List.find?_eq_none]
      intro x hx hpx
      simp only [idUserMatch, Bool.and_eq_true, beq_iff_eq] at hpx
      exact hfresh x hx hpx.1
    have h2 : ([newTodoOf caller b newId now]).find?
        (idUserMatch newId caller) = some (newTodoOf caller b newId now) := by
      simp [List.find?_cons, idUserMatch, newTodoOf]
    rw [h1, h2]
    rfl
  have hget : getTodoById (createTodo store caller [] b newId now).2
      newId caller =
      { status := 200, success := true,
        message := "Todo retrieved successfully",
        todo := some (newTodoOf caller b newId now) } := by
    rw [hstore]
    simp [getTodoById, findOne, hm, hfind]
  refine ⟨by simp [createTodo], hget, ?_⟩
  intro u huu
  rw [hget] at huu
  have hu' : newTodoOf caller b newId now = u := Option.some.inj huu
  subst hu'
  refine ⟨rfl, rfl, rfl, rfl, rfl, rfl, rfl, ?_, ?_, ?_, ?_⟩
  · intro hb; simp [newTodoOf, hb]
  · intro p hb hp; simp [newTodoOf, hb, hp]
  · intro hb; simp [newTodoOf, hb]
  · intro d hb; simp [newTodoOf, hb]

/-- Witness for C9: create with only a title (priority and dueDate omitted)
into an empty store, then fetch by the generated id as the same owner. -/
theorem create_get_roundtrip_witness :
    (createTodo [] "u1" [] { title := "buy milk" }
        "cccccccccccccccccccccccc" 3).1.status = 201 ∧
    getTodoById (createTodo [] "u1" [] { title := "buy milk" }
        "cccccccccccccccccccccccc" 3).2 "cccccccccccccccccccccccc" "u1" =
      { status := 200, success := true,
        message := "Todo retrieved successfully",
        todo := some (newTodoOf "u1" { title := "buy milk" }
          "cccccccccccccccccccccccc" 3) } ∧
    ∀ u, (getTodoById (createTodo [] "u1" [] { title := "buy milk" }
        "cccccccccccccccccccccccc" 3).2 "cccccccccccccccccccccccc"
        "u1").todo = some u →
      u.title = "buy milk" ∧ u.description = none ∧
      u.user = "u1" ∧ u.id = "cccccccccccccccccccccccc" ∧
      u.createdAt = 3 ∧ u.updatedAt = 3 ∧
      u.completed = false ∧
      ((none : Option String) = none → u.priority = "medium") ∧
      (∀ p, (none : Option String) = some p → p ≠ "" → u.priority = p) ∧
      ((none : Option (Option Int)) = none → u.dueDate = none) ∧
      (∀ d, (none : Option (Option Int)) = some (some d) →
        u.dueDate = some d) :=
  create_get_roundtrip [] "u1" { title := "buy milk" }
    "cccccccccccccccccccccccc" 3 (by decide) (by decide)

/-! ### Pagination machinery -/

/-- The descending-`createdAt` comparison is transitive. -/
theorem byCreatedDesc_trans : ∀ a b c : Todo, byCreatedDesc a b = true →
    byCreatedDesc b c = true → byCreatedDesc a c = true := by
  intro a b c hab hbc
  simp only [byCreatedDesc, decide_eq_true_eq] at hab hbc ⊢
  omega

/-- The descending-`createdAt` comparison is total. -/
theorem byCreatedDesc_total : ∀ a b : Todo,
    (byCreatedDesc a b || byCreatedDesc b a) = true := by
  intro a b
  simp only [byCreatedDesc, Bool.or_eq_true, decide_eq_true_eq]
  omega

/-- Chunking a list into `l`-sized pages, `⌈length/l⌉` pages in all, loses
nothing: concatenating the pages in order restores the list. -/
theorem flatten_chunks {α : Type} (l : Nat) (hl : 1 ≤ l) :
    ∀ (n : Nat) (xs : List α), xs.length ≤ n →
      ((List.range ((xs.length + l - 1) / l)).map
        fun i => (xs.drop (i * l)).take l).flatten = xs := by
  intro n
  induction n with
  | zero =>
    intro xs hxs
    have hnil : xs = [] :=
      List.eq_nil_of_length_eq_zero (Nat.le_zero.mp hxs)
    subst hnil
    simp [Nat.div_eq_of_lt (show 0 + l - 1 < l by omega)]
  | succ n ih =>
    intro xs hxs
    cases hxe : xs with
    | nil => simp [Nat.div_eq_of_lt (show 0 + l - 1 < l by omega)]
    | cons a tl =>
      subst hxe
      have hsplit : ((a :: tl).length + l - 1) / l
          = ((a :: tl).length - 1) / l + 1 := by
        have h1 : (a :: tl).length + l - 1 = ((a :: tl).length - 1) + l := by
          simp only [List.length_cons]
          omega
        rw [h1, Nat.add_div_right _ (by omega)]
      rw [hsplit, List.range_succ_eq_map, List.map_cons, List.flatten_cons]
      simp only [Nat.zero_mul, List.drop_zero, List.map_map, Function.comp]
      have hstep : ∀ i : Nat, ((a :: tl).drop (Nat.succ i * l)).take l
          = (((a :: tl).drop l).drop (i * l)).take l := by
        intro i
        rw [List.drop_drop]
        have hmul : Nat.succ i * l = l + i * l := by
          rw [Nat.succ_mul]
          omega
        rw [hmul]
      have hcount : (((a :: tl).drop l).length + l - 1) / l
          = ((a :: tl).length - 1) / l := by
        rw [List.length_drop]
        rcases le_or_lt l (a :: tl).length with hcase | hcase
        · congr 1
          omega
        · have h1 : (a :: tl).length - l = 0 := by omega
          have h2 : 1 ≤ (a :: tl).length := by simp
          rw [h1, Nat.div_eq_of_lt (by omega), Nat.div_eq_of_lt (by omega)]
      have hdroplen : ((a :: tl).drop l).length ≤ n := by
        rw [List.length_drop]
        simp only [List.length_cons] at hxs ⊢
        omega
      calc (a :: tl).take l ++
            (List.map (fun i => ((a :: tl).drop (Nat.succ i * l)).take l)
              (List.range (((a :: tl).length - 1) / l))).flatten
          = (a :: tl).take l ++
            (List.map (fun i => ((((a :: tl).drop l).drop (i * l)).take l))
              (List.range ((((a :: tl).drop l).length + l - 1) / l))).flatten := by
            rw [hcount]
            exact congrArg _ (congrArg List.flatten
              (List.map_congr_left fun i _ => hstep i))
        _ = (a :: tl).take l ++ (a :: tl).drop l := by
            rw [ih ((a :: tl).drop l) hdroplen]
        _ = a :: tl := List.take_append_drop l (a :: tl)

/-- The page-`p` item list of GET /todos, as the caller observes it
(`data.todos`, empty when the handler failed). -/
def listPageItems (store : List Todo) (caller : String) (q : ListQuery)
    (p : Int) : List Todo :=
  ((getAllTodos store caller { q with page := some p }).todos).getD []

/-- Overriding the page leaves the filter untouched. -/
theorem listMatch_page (caller : String) (q : ListQuery) (p : Option Int) :
    listMatch caller { q with page := p } = listMatch caller q := rfl

/-- Overriding the page leaves the effective limit untouched. -/
theorem effLimit_page (q : ListQuery) (p : Option Int) :
    effLimit { q with page := p } = effLimit q := rfl

/-- For a positive requested limit `l`, page `i+1` of the list endpoint is
the `i`-th `l`-sized chunk of the owner's filtered tasks sorted by
descending creation time. -/
theorem listPageItems_eq (store : List Todo) (caller : String)
    (q : ListQuery) (l : Int) (i : Nat)
    (hql : q.limit = some l) (hl : 1 ≤ l) :
    listPageItems store caller q ((i : Int) + 1)
      = (((store.filter (listMatch caller q)).mergeSort byCreatedDesc).drop
          (i * l.toNat)).take l.toNat := by
  have hlim : effLimit { q with page := some ((i : Int) + 1) } = l := by
    rw [effLimit_page]
    simp [effLimit, jsOrDefault, hql]
    omega
  have hpage : effPage { q with page := some ((i : Int) + 1) }
      = (i : Int) + 1 := by
    simp [effPage, jsOrDefault]
    omega
  have hnonneg : ¬ ((i : Int) * l < 0) := by
    push_neg
    exact mul_nonneg (by omega) (by omega)
  have htonat : ((i : Int) * l).toNat = i * l.toNat := by
    have hcast : ((l.toNat : Int)) = l := Int.toNat_of_nonneg (by omega)
    calc ((i : Int) * l).toNat
        = (((i : Nat) : Int) * ((l.toNat : Int))).toNat := by rw [hcast]
      _ = ((((i * l.toNat : Nat)) : Int)).toNat := by push_cast; ring_nf
      _ = i * l.toNat := Int.toNat_natCast _
  have hnatabs : l.natAbs = l.toNat := by omega
  have hred : ((i : Int) + 1 - 1) * l = (i : Int) * l := by ring
  simp only [listPageItems, getAllTodos, listMatch_page, hlim, hpage]
  rw [hred, if_neg hnonneg]
  simp only [Option.getD_some]
  rw [htonat, hnatabs]

/-- C5 (List ordering): whatever store, caller, filter, page and limit, the
item list returned by GET /todos is sorted by creation time descending. -/
theorem list_ordering (store : List Todo) (caller : String) (q : ListQuery)
    (items : List Todo)
    (h : (getAllTodos store caller q).todos = some items) :
    items.Pairwise fun a b => b.createdAt ≤ a.createdAt := by
  unfold getAllTodos at h
  by_cases hs : (effPage q - 1) * effLimit q < 0
  · rw [if_pos hs] at h
    simp at h
  · rw [if_neg hs] at h
    simp only [ApiResponse.todos, Option.some.injEq] at h
    have hsorted : (((store.filter (listMatch caller q)).mergeSort
        byCreatedDesc)).Pairwise fun a b => b.createdAt ≤ a.createdAt :=
      (List.sorted_mergeSort byCreatedDesc_trans byCreatedDesc_total
        _).imp fun hab => by simpa [byCreatedDesc] using hab
    have hsub : items.Sublist ((store.filter (listMatch caller q)).mergeSort
        byCreatedDesc) := by
      rw [← h]
      exact (List.take_sublist _ _).trans (List.drop_sublist _ _)
    exact List.Pairwise.sublist hsub hsorted

unseal List.merge List.mergeSort in
/-- Witness for C5 at a concrete store and the default query. -/
theorem list_ordering_witness :
    (getAllTodos [wTodo] "u1" {}).todos = some [wTodo] ∧
    List.Pairwise (fun a b : Todo => b.createdAt ≤ a.createdAt) [wTodo] :=
  ⟨by decide, list_ordering [wTodo] "u1" {} [wTodo] (by decide)⟩

/-- C3 (List filter correctness): with `completed=true` in the query, every
returned item belongs to the caller and has `completed` set; the returned
`total` is the size of the unpaginated filtered set, and the returned
`pages` is the ceiling division `⌈total/limit⌉`. -/
theorem list_filter_correct (store : List Todo) (caller : String)
    (q : ListQuery) (hq : q.completed = some "true")
    (hp : 1 ≤ effPage q) (hl : 1 ≤ effLimit q) :
    (getAllTodos store caller q).status = 200 ∧
    (∀ items, (getAllTodos store caller q).todos = some items →
      ∀ t ∈ items, t.user = caller ∧ t.completed = true) ∧
    (getAllTodos store caller q).total
      = some (store.filter (listMatch caller q)).length ∧
    (getAllTodos store caller q).pages
      = some (((store.filter (listMatch caller q)).length
          ⌈/⌉ (effLimit q).toNat : Nat) : Int) := by
  have hs : ¬ ((effPage q - 1) * effLimit q < 0) := by
    push_neg
    exact mul_nonneg (by omega) (by omega)
  have hpos : 0 < effLimit q := by omega
  refine ⟨?_, ?_, ?_, ?_⟩
  · simp only [getAllTodos]
    rw [if_neg hs]
  · intro items hitems t htmem
    simp only [getAllTodos] at hitems
    rw [if_neg hs] at hitems
    simp only [Option.some.injEq] at hitems
    have htsort : t ∈ (store.filter (listMatch caller q)).mergeSort
        byCreatedDesc := by
      have hsub : items.Sublist ((store.filter (listMatch caller q)).mergeSort
          byCreatedDesc) := by
        rw [← hitems]
        exact (List.take_sublist _ _).trans (List.drop_sublist _ _)
      exact hsub.mem htmem
    have htfil : t ∈ store.filter (listMatch caller q) :=
      List.mem_mergeSort.mp htsort
    have hmatch := (List.mem_filter.mp htfil).2
    simp only [listMatch, hq, Bool.and_eq_true, beq_iff_eq] at hmatch
    refine ⟨hmatch.1.1, ?_⟩
    have := hmatch.1.2
    simpa using this
  · simp only [getAllTodos]
    rw [if_neg hs]
  · simp only [getAllTodos]
    rw [if_neg hs]
    simp only [ApiResponse.pages, Option.some.injEq]
    rw [if_pos hpos, Nat.ceilDiv_eq_add_pred_div]

/-- A second stored task: owned by the same user, completed. -/
def wTodo2 : Todo :=
  { wTodo with id := "dddddddddddddddddddddddd", completed := true }

unseal List.merge List.mergeSort in
/-- Witness for C3: a mixed store under the caller "u1" with
`completed=true`, default page and limit. -/
theorem list_filter_correct_witness :
    (getAllTodos [wTodo, wTodo2] "u1" { completed := some "true" }).status
      = 200 ∧
    (∀ items, (getAllTodos [wTodo, wTodo2] "u1"
        { completed := some "true" }).todos = some items →
      ∀ t ∈ items, t.user = "u1" ∧ t.completed = true) ∧
    (getAllTodos [wTodo, wTodo2] "u1" { completed := some "true" }).total
      = some ([wTodo, wTodo2].filter (listMatch "u1"
          { completed := some "true" })).length ∧
    (getAllTodos [wTodo, wTodo2] "u1" { completed := some "true" }).pages
      = some ((([wTodo, wTodo2].filter (listMatch "u1"
          { completed := some "true" })).length
          ⌈/⌉ (effLimit { completed := some "true" }).toNat : Nat) : Int) :=
  list_filter_correct [wTodo, wTodo2] "u1" { completed := some "true" }
    (by decide) (by decide) (by decide)

/-- C4 (Pagination completeness): for a positive requested limit `l` and a
store with unique ids, concatenating the item lists of pages
`1 .. ⌈total/l⌉` yields exactly the owner's filtered set — a permutation of
it, with no id appearing twice, hence no duplicates and no gaps. -/
theorem pagination_completeness (store : List Todo) (caller : String)
    (q : ListQuery) (l : Int) (hql : q.limit = some l) (hl : 1 ≤ l)
    (hnd : (store.map Todo.id).Nodup) :
    (((List.range ((store.filter (listMatch caller q)).length
        ⌈/⌉ l.toNat)).map
        fun i : Nat => listPageItems store caller q ((i : Int) + 1)).flatten).Perm
      (store.filter (listMatch caller q)) ∧
    ((((List.range ((store.filter (listMatch caller q)).length
        ⌈/⌉ l.toNat)).map
        fun i : Nat => listPageItems store caller q ((i : Int) + 1)).flatten).map
      Todo.id).Nodup := by
  have hl1 : 1 ≤ l.toNat := by omega
  have hflat : ((List.range ((store.filter (listMatch caller q)).length
      ⌈/⌉ l.toNat)).map
      fun i : Nat => listPageItems store caller q ((i : Int) + 1)).flatten
      = (store.filter (listMatch caller q)).mergeSort byCreatedDesc := by
    have hlen : ((store.filter (listMatch caller q)).mergeSort
        byCreatedDesc).length = (store.filter (listMatch caller q)).length :=
      List.length_mergeSort _
    rw [Nat.ceilDiv_eq_add_pred_div, ← hlen,
      List.map_congr_left fun i _ =>
        listPageItems_eq store caller q l i hql hl]
    exact flatten_chunks l.toNat hl1 _ _ le_rfl
  constructor
  · rw [hflat]
    exact List.mergeSort_perm _ _
  · rw [hflat]
    have hperm : (((store.filter (listMatch caller q)).mergeSort
        byCreatedDesc).map Todo.id).Perm
        ((store.filter (listMatch caller q)).map Todo.id) :=
      (List.mergeSort_perm _ _).map Todo.id
    rw [hperm.nodup_iff]
    exact List.Nodup.sublist
      (List.Sublist.map Todo.id (List.filter_sublist store)) hnd

/-- Witness for C4: a two-task store, requested limit 10. -/
theorem pagination_completeness_witness :
    (((List.range (([wTodo, wTodo2].filter (listMatch "u1"
        { limit := some 10 })).length ⌈/⌉ (10 : Int).toNat)).map
        fun i : Nat => listPageItems [wTodo, wTodo2] "u1" { limit := some 10 }
          ((i : Int) + 1)).flatten).Perm
      ([wTodo, wTodo2].filter (listMatch "u1" { limit := some 10 })) ∧
    ((((List.range (([wTodo, wTodo2].filter (listMatch "u1"
        { limit := some 10 })).length ⌈/⌉ (10 : Int).toNat)).map
        fun i : Nat => listPageItems [wTodo, wTodo2] "u1" { limit := some 10 }
          ((i : Int) + 1)).flatten).map Todo.id).Nodup :=
  pagination_completeness [wTodo, wTodo2] "u1" { limit := some 10 } 10
    (by decide) (by decide) (by decide)

unseal List.merge List.mergeSort in
/-- C6 counterexample: a list request with `limit=1000` yields an effective
limit of 1000 — outside `[1,100]` — and is served normally (HTTP 200) rather
than clamped or rejected. -/
theorem pagination_bounds_counterexample :
    effLimit { limit := some 1000 } = 1000 ∧
    ¬ effLimit { limit := some 1000 } ≤ 100 ∧
    (getAllTodos [wTodo] "u1" { limit := some 1000 }).status = 200 ∧
    (getAllTodos [wTodo] "u1" { limit := some 1000 }).limit = some 1000 := by
  decide

/-- C6 amended: the effective page and limit fall back to the defaults 1
and 10 when the parameter is missing, unparseable, or parses to 0; any
other supplied value is used exactly as given — including limits above
100 — with no clamping to `[1,100]`; and every request whose supplied
page/limit are nonnegative is served normally (HTTP 200), never
rejected. -/
theorem pagination_bounds_amended (store : List Todo) (caller : String)
    (q : ListQuery)
    (hp : ∀ v, q.page = some v → 0 ≤ v)
    (hl : ∀ v, q.limit = some v → 0 ≤ v) :
    (q.page = none ∨ q.page = some 0 → effPage q = 1) ∧
    (∀ v, q.page = some v → v ≠ 0 → effPage q = v) ∧
    (q.limit = none ∨ q.limit = some 0 → effLimit q = 10) ∧
    (∀ v, q.limit = some v → v ≠ 0 → effLimit q = v) ∧
    1 ≤ effPage q ∧ 1 ≤ effLimit q ∧
    (getAllTodos store caller q).status = 200 := by
  have hpage : (q.page = none ∨ q.page = some 0 → effPage q = 1) ∧
      (∀ v, q.page = some v → v ≠ 0 → effPage q = v) ∧ 1 ≤ effPage q := by
    cases hqp : q.page with
    | none =>
      refine ⟨fun _ => by simp [effPage, jsOrDefault, hqp], ?_,
        by simp [effPage, jsOrDefault, hqp]⟩
      intro v hv
      cases hv
    | some v =>
      have hv0 := hp v hqp
      by_cases hz : v = 0
      · subst hz
        refine ⟨fun _ => by simp [effPage, jsOrDefault, hqp], ?_,
          by simp [effPage, jsOrDefault, hqp]⟩
        intro w hw hwne
        exact absurd (Option.some.inj hw).symm hwne
      · refine ⟨?_, ?_, ?_⟩
        · intro hcase
          rcases hcase with h1 | h1
          · cases h1
          · exact absurd (Option.some.inj h1) hz
        · intro w hw hwne
          rw [← Option.some.inj hw]
          simp [effPage, jsOrDefault, hqp, hz]
        · simp only [effPage, jsOrDefault, hqp, hz, if_false, reduceIte]
          omega
  have hlim : (q.limit = none ∨ q.limit = some 0 → effLimit q = 10) ∧
      (∀ v, q.limit = some v → v ≠ 0 → effLimit q = v) ∧ 1 ≤ effLimit q := by
    cases hql : q.limit with
    | none =>
      refine ⟨fun _ => by simp [effLimit, jsOrDefault, hql], ?_,
        by simp [effLimit, jsOrDefault, hql]⟩
      intro v hv
      cases hv
    | some v =>
      have hv0 := hl v hql
      by_cases hz : v = 0
      · subst hz
        refine ⟨fun _ => by simp [effLimit, jsOrDefault, hql], ?_,
          by simp [effLimit, jsOrDefault, hql]⟩
        intro w hw hwne
        exact absurd (Option.some.inj hw).symm hwne
      · refine ⟨?_, ?_, ?_⟩
        · intro hcase
          rcases hcase with h1 | h1
          · cases h1
          · exact absurd (Option.some.inj h1) hz
        · intro w hw hwne
          rw [← Option.some.inj hw]
          simp [effLimit, jsOrDefault, hql, hz]
        · simp only [effLimit, jsOrDefault, hql, hz, if_false, reduceIte]
          omega
  have hs : ¬ ((effPage q - 1) * effLimit q < 0) := by
    push_neg
    have h1 := hpage.2.2
    have h2 := hlim.2.2
    exact mul_nonneg (by omega) (by omega)
  refine ⟨hpage.1, hpage.2.1, hlim.1, hlim.2.1, hpage.2.2, hlim.2.2, ?_⟩
  simp only [getAllTodos]
  rw [if_neg hs]

/-- Witness for the amended C6, at both regimes: `page=0, limit=0` fall
back to the defaults 1 and 10; `page=2, limit=1000` pass through unclamped;
both requests are served with HTTP 200. -/
theorem pagination_bounds_amended_witness :
    ((({ page := some 0, limit := some 0 } : ListQuery).page = none ∨
        ({ page := some 0, limit := some 0 } : ListQuery).page = some 0 →
      effPage { page := some 0, limit := some 0 } = 1) ∧
    (∀ v, ({ page := some 0, limit := some 0 } : ListQuery).page = some v →
      v ≠ 0 → effPage { page := some 0, limit := some 0 } = v) ∧
    (({ page := some 0, limit := some 0 } : ListQuery).limit = none ∨
        ({ page := some 0, limit := some 0 } : ListQuery).limit = some 0 →
      effLimit { page := some 0, limit := some 0 } = 10) ∧
    (∀ v, ({ page := some 0, limit := some 0 } : ListQuery).limit = some v →
      v ≠ 0 → effLimit { page := some 0, limit := some 0 } = v) ∧
    1 ≤ effPage { page := some 0, limit := some 0 } ∧
    1 ≤ effLimit { page := some 0, limit := some 0 } ∧
    (getAllTodos [wTodo] "u1" { page := some 0, limit := some 0 }).status
      = 200) ∧
    ((({ page := some 2, limit := some 1000 } : ListQuery).page = none ∨
        ({ page := some 2, limit := some 1000 } : ListQuery).page = some 0 →
      effPage { page := some 2, limit := some 1000 } = 1) ∧
    (∀ v, ({ page := some 2, limit := some 1000 } : ListQuery).page = some v →
      v ≠ 0 → effPage { page := some 2, limit := some 1000 } = v) ∧
    (({ page := some 2, limit := some 1000 } : ListQuery).limit = none ∨
        ({ page := some 2, limit := some 1000 } : ListQuery).limit = some 0 →
      effLimit { page := some 2, limit := some 1000 } = 10) ∧
    (∀ v, ({ page := some 2, limit := some 1000 } : ListQuery).limit
        = some v → v ≠ 0 → effLimit { page := some 2, limit := some 1000 }
      = v) ∧
    1 ≤ effPage { page := some 2, limit := some 1000 } ∧
    1 ≤ effLimit { page := some 2, limit := some 1000 } ∧
    (getAllTodos [wTodo] "u1" { page := some 2, limit := some 1000 }).status
      = 200) :=
  ⟨pagination_bounds_amended [wTodo] "u1" { page := some 0, limit := some 0 }
      (by intro v hv; cases hv; omega) (by intro v hv; cases hv; omega),
   pagination_bounds_amended [wTodo] "u1"
      { page := some 2, limit := some 1000 }
      (by intro v hv; cases hv; omega) (by intro v hv; cases hv; omega)⟩
